import Mathlib

/-!
Verification of the `statics` image-upload microservice
(`src/lib.rs`, `src/main.rs`, `src/controller/mod.rs`).

The controller pipeline for `POST /images` (token verification, body
buffering, multipart decomposition, per-part format detection, S3 upload,
response assembly) is embedded as executable Lean functions.  External
collaborators (the `jsonwebtoken` decoder, the `multipart` parser, the
`image` format sniffer, the S3 adapter) are passed in as explicit function
parameters, exactly as the controller receives them as injected
dependencies; theorems quantify over them, and concrete instantiations are
used for evaluation.
-/

/-- HTTP methods, as matched by `ControllerImpl::call` (`req.method()`). -/
inductive Method where
  | get
  | post
  | put
  | delete
  | other
deriving DecidableEq, Repr

/-- Modelled from the spec: `src/controller/routes.rs` is declared
(`pub mod routes`) but absent from the sources; the spec's routing table
(§4.1) lists exactly the routes `/healthcheck` and `/images`. -/
inductive Route where
  | healthcheck
  | images
deriving DecidableEq, Repr

/-- Modelled from the spec: `routes::create_route_parser()` is absent from
the sources; per the spec's routing table it recognizes `/healthcheck` and
`/images` and nothing else.  This is `self.route_parser.test(req.path())`. -/
def route_parser_test (path : String) : Option Route :=
  if path = "/healthcheck" then some Route.healthcheck
  else if path = "/images" then some Route.images
  else none

/-- Modelled from the spec: `src/errors.rs` is declared (`mod errors`) but
absent from the sources; the spec's error taxonomy (§7) gives these kinds.
`PayloadTooLarge` is listed as optional and is never produced by the
controller, so it is omitted. -/
inductive Error where
  | notFound
  | unauthorized
  | parse
  | image
  | network
  | internal
deriving DecidableEq, Repr

/-- Modelled from the spec: the HTTP status rendered for each error kind
(§7): NotFound 404, Unauthorized 401, Parse 400, Image 400, Network 502,
Internal 500. -/
def Error.code : Error → Nat
  | Error.notFound => 404
  | Error.unauthorized => 401
  | Error.parse => 400
  | Error.image => 400
  | Error.network => 502
  | Error.internal => 500

/-- A `failure::Error` as the controller builds it: the chain of
`Error`-typed contexts wrapped around the root cause, outermost first.
`e.context(k)` conses `k` in front; a bare `format_err!` with no
`Error` context is the empty chain. -/
structure AppError where
  contexts : List Error
deriving DecidableEq, Repr

/-- Modelled from the spec: `ErrorMessageWrapper::<Error>::from(&err)` lives
in the external `stq_http` crate.  Per the spec (§7) each kind "is produced
at its producing component and travels unmodified to HF", so the rendered
status is the code of the innermost (originating) `Error` context; a chain
with no `Error` context renders as 500 (Internal). -/
def AppError.renderedCode (e : AppError) : Nat :=
  match e.contexts.getLast? with
  | some k => k.code
  | none => 500

/-- `JWTPayload` from `src/controller/mod.rs`. -/
structure JWTPayload where
  user_id : Int
  exp : Int
deriving DecidableEq, Repr

/-- Image formats (spec §3): the tags the format-detection routine can
return. -/
inductive ImageFormat where
  | png
  | jpeg
  | gif
  | webp
  | bmp
  | tiff
  | ico
deriving DecidableEq, Repr

/-- Modelled from the spec: `src/services/s3.rs` is declared
(`mod services`, `use services::s3::S3`) but absent from the sources.
Per §4.4 a failed `upload_image` is classified on S3 4xx as a format
rejection (kind `Image`) and on S3 5xx or transport error as `Internal`. -/
inductive S3Failure where
  | formatRejection
  | serverOrTransport
deriving DecidableEq, Repr

/-- Modelled from the spec: the error kind the S3 adapter attaches to a
failed upload (§4.4): `Image` for 4xx format rejections, `Internal`
otherwise. -/
def S3Failure.kind : S3Failure → Error
  | S3Failure.formatRejection => Error.image
  | S3Failure.serverOrTransport => Error.internal

/-- A minimal JSON value type for `serde_json::Value` as the controller
uses it: `json!({ "url": name })` objects and `serde_json::to_value` of a
vector of such objects. -/
inductive Json where
  | str (s : String)
  | arr (xs : List Json)
  | obj (fields : List (String × Json))

/-- One multipart field as `foreach_entry` sees it: `bytesRead` is the
content of `file_data` after `field.data.read_to_end(&mut file_data)`
(everything read before success or failure), `readOk` records whether that
`read_to_end` returned `Ok` (its result is discarded by the closure). -/
structure MultipartField where
  bytesRead : List Nat
  readOk : Bool
deriving DecidableEq, Repr

/-- The parsed multipart entity: the fields `foreach_entry` visits in
order, and whether iteration itself fails after visiting them
(`foreach_entry` returning `Err`). -/
structure MultipartEntity where
  fields : List MultipartField
  iterErr : Bool
deriving DecidableEq, Repr

/-- Request headers as the controller consults them: the
`Authorization: Bearer <token>` header and the `Content-Type` header
(carrying the multipart boundary). -/
structure Headers where
  authorization : Option String
  contentType : Option String
deriving DecidableEq, Repr

/-- A `hyper` request as `ControllerImpl::call` consumes it.  The body is
the stream of chunks `read_bytes` folds over, or a transport error
(`hyper::Error`) while reading it. -/
structure Request where
  method : Method
  path : String
  headers : Headers
  body : Except Unit (List (List Nat))
deriving Repr

/-- The configuration fields the controller reads: `config.jwt.leeway`,
the loaded `jwt_public_key` bytes, and `config.server.acao`. -/
structure Config where
  leeway : Int
  jwtKey : List Nat
  acao : String
deriving DecidableEq, Repr

/-- The external collaborators of the controller, as injected functions:
`jsonwebtoken::decode::<JWTPayload>` (given key, leeway, token),
`Multipart::from_request` on the buffered body (given the Content-Type
header and the bytes), `image::guess_format`, and `S3::upload_image`. -/
structure Deps where
  decodeJwt : List Nat → Int → String → Option JWTPayload
  parseMultipart : Option String → List Nat → Option MultipartEntity
  guessFormat : List Nat → Option ImageFormat
  s3Upload : ImageFormat → List Nat → Except S3Failure String

/-- `verify_token` from `src/controller/mod.rs`: look up the
`Authorization: Bearer` header (missing → `Unauthorized` context), then
decode the token as an RS256 JWT with the configured leeway (decode error →
`Unauthorized` context), yielding the claims. -/
def verify_token (decodeJwt : List Nat → Int → String → Option JWTPayload)
    (jwt_key : List Nat) (leeway : Int) (headers : Headers) :
    Except AppError JWTPayload :=
  match headers.authorization with
  | none => Except.error ⟨[Error.unauthorized]⟩
  | some token =>
    match decodeJwt jwt_key leeway token with
    | none => Except.error ⟨[Error.unauthorized]⟩
    | some t => Except.ok t

/-- `read_bytes` from `src/controller/mod.rs`: fold the body's chunks into
one buffer; a `hyper::Error` from the stream is propagated. -/
def read_bytes (body : Except Unit (List (List Nat))) :
    Except Unit (List Nat) :=
  match body with
  | Except.error e => Except.error e
  | Except.ok chunks => Except.ok (chunks.foldl (fun acc c => acc ++ c) [])

/-- The `foreach_entry` block: for each field, `read_to_end` into
`file_data` with the `Result` discarded (`let _ = ...`), then push
`file_data` unconditionally; if iteration itself errs, fail with a `Parse`
context. -/
def collect_files (entity : MultipartEntity) : Except AppError (List (List Nat)) :=
  if entity.iterErr then Except.error ⟨[Error.parse]⟩
  else Except.ok (entity.fields.map (fun f => f.bytesRead))

/-- The per-file stream section (`flatten_stream ... and_then ... collect`):
for each file in order, `image::guess_format` (failure → contexts
`[Image]`), then `s3.upload_image` mapped to `json!(\x7b "url": name \x7d)`
(failure `e` → `e.context(Error::Image)`, i.e. an `Image` context wrapped
around the adapter's own kind).  `collect` stops at the first error.
Also returns the list of `upload_image` calls performed, in order. -/
def process_files (guessFormat : List Nat → Option ImageFormat)
    (s3Upload : ImageFormat → List Nat → Except S3Failure String) :
    List (List Nat) → Except AppError (List Json) × List (ImageFormat × List Nat)
  | [] => (Except.ok [], [])
  | f :: rest =>
    match guessFormat f with
    | none => (Except.error ⟨[Error.image]⟩, [])
    | some fmt =>
      match s3Upload fmt f with
      | Except.error k => (Except.error ⟨[Error.image, k.kind]⟩, [(fmt, f)])
      | Except.ok name =>
        let (r, ups) := process_files guessFormat s3Upload rest
        (r.map (fun js => Json.obj [("url", Json.str name)] :: js),
         (fmt, f) :: ups)

/-- The final `and_then` on the collected `uploaded_images`: if exactly one,
take it (`into_iter().next()`, `None` → the bare `format_err!("No images
were sent")`, which carries no `Error` context); otherwise
`serde_json::to_value` of the vector, which on a `Vec<serde_json::Value>`
always succeeds with the JSON array. -/
def assemble (uploaded_images : List Json) : Except AppError Json :=
  if uploaded_images.length = 1 then
    match uploaded_images.head? with
    | some j => Except.ok j
    | none => Except.error ⟨[]⟩
  else
    Except.ok (Json.arr uploaded_images)

/-- Which stages of the `POST /images` pipeline ran for a request:
whether `read_bytes` was invoked, whether `Multipart::from_request` was
invoked, and the `upload_image` calls performed (format and bytes, in
order). -/
structure Trace where
  bodyReadAttempted : Bool
  multipartParseAttempted : Bool
  uploads : List (ImageFormat × List Nat)
deriving DecidableEq, Repr

/-- The trace of a request that never got past routing or token
verification: nothing was read, parsed or uploaded. -/
def Trace.none : Trace := ⟨false, false, []⟩

/-- `ControllerImpl::call` before the final `map_err`: route on
`(method, route_parser.test(path))`; `POST /images` runs
`verify_token → read_bytes → Multipart::from_request → foreach_entry →`
per-file format detection and upload `→ collect →` assembly; everything
else falls through to `Err(Error::NotFound)`.  Returns the outcome together
with the trace of pipeline stages that ran. -/
def call (deps : Deps) (cfg : Config) (req : Request) :
    Except AppError Json × Trace :=
  match req.method, route_parser_test req.path with
  | Method.post, some Route.images =>
    match verify_token deps.decodeJwt cfg.jwtKey cfg.leeway req.headers with
    | Except.error e => (Except.error e, Trace.none)
    | Except.ok _user_id =>
      match read_bytes req.body with
      | Except.error _ => (Except.error ⟨[Error.network]⟩, ⟨true, false, []⟩)
      | Except.ok bytes =>
        match deps.parseMultipart req.headers.contentType bytes with
        | none => (Except.error ⟨[Error.parse]⟩, ⟨true, true, []⟩)
        | some entity =>
          match collect_files entity with
          | Except.error e => (Except.error e, ⟨true, true, []⟩)
          | Except.ok files =>
            let (r, ups) := process_files deps.guessFormat deps.s3Upload files
            match r with
            | Except.error e => (Except.error e, ⟨true, true, ups⟩)
            | Except.ok uploaded_images => (assemble uploaded_images, ⟨true, true, ups⟩)
  | _, _ => (Except.error ⟨[Error.notFound]⟩, Trace.none)

/-- The final `map_err` of `ControllerImpl::call`: the error is passed to
`log_and_capture_error` (the sentry sink) exactly when
`ErrorMessageWrapper::<Error>::from(&err).inner.code == 500`.  Returns
whether the sink was invoked. -/
def sentry_reported (result : Except AppError Json) : Bool :=
  match result with
  | Except.error err => decide (err.renderedCode = 500)
  | Except.ok _ => false

/-- An HTTP response: status, headers (name-value pairs) and JSON body. -/
structure Response where
  status : Nat
  headers : List (String × String)
  body : Json

/-- Modelled from the spec: the `stq_http` `Application` (external crate)
renders the controller's outcome: `Ok(v)` → 200 with `v` as body, `Err(e)`
→ the error envelope with the wrapper's code (§7). -/
def render_response (result : Except AppError Json) : Response :=
  match result with
  | Except.ok v => ⟨200, [], v⟩
  | Except.error e =>
    ⟨e.renderedCode, [],
     Json.obj [("code", Json.str (toString e.renderedCode))]⟩

/-- `Response::with_header` for `AccessControlAllowOrigin::Value(acao)`:
prepend the header. -/
def with_acao_header (acao : String) (rsp : Response) : Response :=
  { rsp with headers := ("Access-Control-Allow-Origin", acao) :: rsp.headers }

/-- The served application from `start_server` (`src/lib.rs`):
`Application::new(controller).with_middleware(|rsp|
rsp.with_header(AccessControlAllowOrigin::Value(acao)))` — every response
the controller produces, success or error, passes through the middleware. -/
def serve (deps : Deps) (cfg : Config) (req : Request) : Response :=
  with_acao_header cfg.acao (render_response (call deps cfg req).1)

/-- Spec-side definition (§4.3 steps 3-5): the URL each part yields, in
arrival order, when every part's format is recognized and every upload
succeeds; `none` as soon as any part fails. -/
def spec_urls (guessFormat : List Nat → Option ImageFormat)
    (s3Upload : ImageFormat → List Nat → Except S3Failure String) :
    List (List Nat) → Option (List String)
  | [] => some []
  | f :: rest =>
    match guessFormat f with
    | none => none
    | some fmt =>
      match s3Upload fmt f with
      | Except.error _ => none
      | Except.ok u => (spec_urls guessFormat s3Upload rest).map (fun us => u :: us)

/-- The JSON object a single uploaded URL is rendered as. -/
def url_object (u : String) : Json := Json.obj [("url", Json.str u)]

/-- Spec-side definition of the success response shape (§4.3 step 5): a
single object for exactly one URL, otherwise the ordered array. -/
def spec_response_shape (urls : List String) : Json :=
  match urls with
  | [u] => url_object u
  | _ => Json.arr (urls.map url_object)

lemma spec_urls_length (g : List Nat → Option ImageFormat)
    (u : ImageFormat → List Nat → Except S3Failure String) :
    ∀ (files : List (List Nat)) (urls : List String),
      spec_urls g u files = some urls → urls.length = files.length := by
  intro files
  induction files with
  | nil =>
    intro urls h
    simp [spec_urls] at h
    simp [← h]
  | cons f rest ih =>
    intro urls h
    simp only [spec_urls] at h
    split at h
    · exact absurd h (by simp)
    · rename_i fmt hg
      split at h
      · exact absurd h (by simp)
      · rename_i url hu
        cases hrest : spec_urls g u rest with
        | none => rw [hrest] at h; exact absurd h (by simp)
        | some us =>
          rw [hrest] at h
          simp at h
          subst h
          simp [ih us hrest]

lemma process_files_fst_of_spec_urls (g : List Nat → Option ImageFormat)
    (u : ImageFormat → List Nat → Except S3Failure String) :
    ∀ (files : List (List Nat)) (urls : List String),
      spec_urls g u files = some urls →
      (process_files g u files).1 = Except.ok (urls.map url_object) := by
  intro files
  induction files with
  | nil =>
    intro urls h
    simp [spec_urls] at h
    simp [process_files, ← h]
  | cons f rest ih =>
    intro urls h
    simp only [spec_urls] at h
    split at h
    · exact absurd h (by simp)
    · rename_i fmt hg
      split at h
      · exact absurd h (by simp)
      · rename_i url hu
        cases hrest : spec_urls g u rest with
        | none => rw [hrest] at h; exact absurd h (by simp)
        | some us =>
          rw [hrest] at h
          simp at h
          subst h
          simp only [process_files, hg, hu]
          rw [ih us hrest]
          simp [Except.map, url_object]

lemma process_files_fst_cons_ok (g : List Nat → Option ImageFormat)
    (u : ImageFormat → List Nat → Except S3Failure String)
    (f : List Nat) (rest : List (List Nat)) (fmt : ImageFormat) (url : String)
    (hg : g f = some fmt) (hu : u fmt f = Except.ok url) :
    (process_files g u (f :: rest)).1 =
      ((process_files g u rest).1).map (fun js => url_object url :: js) := by
  rcases hpf : process_files g u rest with ⟨r, ups⟩
  simp only [process_files, hg, hu, hpf]
  cases r <;> simp [Except.map, url_object]

lemma process_files_fst_append (g : List Nat → Option ImageFormat)
    (u : ImageFormat → List Nat → Except S3Failure String) :
    ∀ (pre : List (List Nat)) (urls : List String) (l : List (List Nat)),
      spec_urls g u pre = some urls →
      (process_files g u (pre ++ l)).1 =
        ((process_files g u l).1).map (fun js => urls.map url_object ++ js) := by
  intro pre
  induction pre with
  | nil =>
    intro urls l hpre
    simp [spec_urls] at hpre
    cases hr : (process_files g u l).1 <;> simp [hr, ← hpre, Except.map]
  | cons p rest ih =>
    intro urls l hpre
    simp only [spec_urls] at hpre
    split at hpre
    · exact absurd hpre (by simp)
    · rename_i fmt hg
      split at hpre
      · exact absurd hpre (by simp)
      · rename_i url hu
        cases hrest : spec_urls g u rest with
        | none => rw [hrest] at hpre; exact absurd hpre (by simp)
        | some us =>
          rw [hrest] at hpre
          simp at hpre
          subst hpre
          rw [List.cons_append,
              process_files_fst_cons_ok g u p (rest ++ l) fmt url hg hu,
              ih us l hrest]
          cases hr : (process_files g u l).1 <;> simp [Except.map]

lemma process_files_fst_err_of_guess_none (g : List Nat → Option ImageFormat)
    (u : ImageFormat → List Nat → Except S3Failure String) :
    ∀ (files : List (List Nat)) (f : List Nat), f ∈ files → g f = none →
      ∃ e, (process_files g u files).1 = Except.error e := by
  intro files
  induction files with
  | nil => intro f hf; cases hf
  | cons p rest ih =>
    intro f hf hg
    rcases List.mem_cons.mp hf with h | h
    · subst h
      exact ⟨⟨[Error.image]⟩, by simp [process_files, hg]⟩
    · cases hgp : g p with
      | none => exact ⟨⟨[Error.image]⟩, by simp [process_files, hgp]⟩
      | some fmt =>
        cases hup : u fmt p with
        | error k =>
          exact ⟨⟨[Error.image, k.kind]⟩, by simp [process_files, hgp, hup]⟩
        | ok url =>
          obtain ⟨e, he⟩ := ih f h hg
          refine ⟨e, ?_⟩
          rw [process_files_fst_cons_ok g u p rest fmt url hgp hup, he]
          simp [Except.map]

lemma assemble_map_url_object (urls : List String) :
    assemble (urls.map url_object) = Except.ok (spec_response_shape urls) := by
  match urls with
  | [] => rfl
  | [u] => rfl
  | u :: v :: rest => simp [assemble, spec_response_shape]

lemma call_images_eq (deps : Deps) (cfg : Config) (hdrs : Headers)
    (body : Except Unit (List (List Nat))) (payload : JWTPayload)
    (bytes : List Nat) (entity : MultipartEntity)
    (hv : verify_token deps.decodeJwt cfg.jwtKey cfg.leeway hdrs = Except.ok payload)
    (hb : read_bytes body = Except.ok bytes)
    (hpm : deps.parseMultipart hdrs.contentType bytes = some entity)
    (hie : entity.iterErr = false) :
    call deps cfg ⟨Method.post, "/images", hdrs, body⟩ =
      (((process_files deps.guessFormat deps.s3Upload
           (entity.fields.map (fun f => f.bytesRead))).1).bind assemble,
       ⟨true, true,
        (process_files deps.guessFormat deps.s3Upload
           (entity.fields.map (fun f => f.bytesRead))).2⟩) := by
  have hroute : route_parser_test "/images" = some Route.images := rfl
  rcases hpf : process_files deps.guessFormat deps.s3Upload
      (entity.fields.map (fun f => f.bytesRead)) with ⟨r, ups⟩
  simp only [call, hroute, hv, hb, hpm, collect_files]
  rw [if_neg (by simp [hie])]
  simp only [hpf]
  cases r <;> rfl

/-- A concrete configuration for evaluating the pipeline. -/
def demo_cfg : Config := ⟨60, [1, 2], "https://example.com"⟩

/-- The PNG magic prefix from spec scenario 3. -/
def png_bytes : List Nat := [137, 80, 78, 71, 13, 10, 26, 10]

/-- A JPEG magic prefix. -/
def jpeg_bytes : List Nat := [255, 216, 255, 224]

/-- The bytes of a non-image part (spec scenario 5). -/
def text_bytes : List Nat := [104, 101, 108, 108, 111]

/-- A concrete JWT decoder accepting exactly the token string `tok`. -/
def demo_decode : List Nat → Int → String → Option JWTPayload :=
  fun _ _ token => if token = "tok" then some ⟨7, 1600000000⟩ else none

/-- A concrete format sniffer recognizing the two demo magic prefixes. -/
def demo_guess : List Nat → Option ImageFormat :=
  fun bs =>
    if bs = png_bytes then some ImageFormat.png
    else if bs = jpeg_bytes then some ImageFormat.jpeg
    else none

/-- A concrete always-succeeding store adapter. -/
def demo_upload : ImageFormat → List Nat → Except S3Failure String :=
  fun fmt _ =>
    match fmt with
    | ImageFormat.png => Except.ok "https://s3/img-aaaa.png"
    | _ => Except.ok "https://s3/img-bbbb.jpg"

/-- Demo collaborators whose multipart parser yields the given entity. -/
def demo_deps (entity : MultipartEntity) : Deps :=
  ⟨demo_decode, fun _ _ => some entity, demo_guess, demo_upload⟩

/-- Headers carrying the accepted bearer token and a multipart boundary. -/
def demo_headers : Headers := ⟨some "tok", some "multipart/form-data; boundary=X"⟩

/-- A two-part multipart entity: one PNG part, one JPEG part. -/
def two_part_entity : MultipartEntity :=
  ⟨[⟨png_bytes, true⟩, ⟨jpeg_bytes, true⟩], false⟩

/-- A concrete `POST /images` request with the given body chunks. -/
def demo_req (chunks : List (List Nat)) : Request :=
  ⟨Method.post, "/images", demo_headers, Except.ok chunks⟩

/-- C1: for every successful `POST /images` upload of N parts, the response
JSON is the single `url` object when N = 1 and the array of N `url` objects
when N > 1 (`spec_response_shape`), and the array lists the URLs in the
arrival order of the multipart parts (`spec_urls` is the in-order upload of
the parts). -/
theorem c1_response_shape (deps : Deps) (cfg : Config) (req : Request)
    (payload : JWTPayload) (bytes : List Nat) (entity : MultipartEntity)
    (urls : List String)
    (hm : req.method = Method.post) (hp : req.path = "/images")
    (hv : verify_token deps.decodeJwt cfg.jwtKey cfg.leeway req.headers = Except.ok payload)
    (hb : read_bytes req.body = Except.ok bytes)
    (hpm : deps.parseMultipart req.headers.contentType bytes = some entity)
    (hie : entity.iterErr = false)
    (hurls : spec_urls deps.guessFormat deps.s3Upload
        (entity.fields.map (fun f => f.bytesRead)) = some urls) :
    (call deps cfg req).1 = Except.ok (spec_response_shape urls) ∧
      urls.length = entity.fields.length := by
  rcases req with ⟨m, path, hdrs, body⟩
  dsimp only at hm hp hv hb hpm
  subst hm
  subst hp
  have h1 := call_images_eq deps cfg hdrs body payload bytes entity hv hb hpm hie
  have h2 := process_files_fst_of_spec_urls deps.guessFormat deps.s3Upload
    (entity.fields.map (fun f => f.bytesRead)) urls hurls
  constructor
  · rw [h1]
    show ((process_files deps.guessFormat deps.s3Upload
        (entity.fields.map (fun f => f.bytesRead))).1).bind assemble = _
    rw [h2]
    show assemble (urls.map url_object) = _
    exact assemble_map_url_object urls
  · have h3 := spec_urls_length deps.guessFormat deps.s3Upload
      (entity.fields.map (fun f => f.bytesRead)) urls hurls
    simpa using h3

/-- Witness for C1: a concrete two-part upload (PNG then JPEG) yields the
two-element array in part order. -/
theorem c1_response_shape_witness :
    (call (demo_deps two_part_entity) demo_cfg (demo_req [png_bytes, jpeg_bytes])).1 =
      Except.ok (spec_response_shape ["https://s3/img-aaaa.png", "https://s3/img-bbbb.jpg"]) ∧
      (["https://s3/img-aaaa.png", "https://s3/img-bbbb.jpg"] : List String).length =
        two_part_entity.fields.length :=
  c1_response_shape (demo_deps two_part_entity) demo_cfg (demo_req [png_bytes, jpeg_bytes])
    ⟨7, 1600000000⟩ (png_bytes ++ jpeg_bytes) two_part_entity
    ["https://s3/img-aaaa.png", "https://s3/img-bbbb.jpg"]
    rfl rfl rfl rfl rfl rfl rfl

/-- C2 counterexample: a `POST /images` request whose multipart body parses
successfully with zero parts gets a SUCCESS response (status 200, body the
empty JSON array), not a failure: the collected `uploaded_images` is empty,
its length is not 1, and `serde_json::to_value` of the empty vector
succeeds. -/
theorem c2_counterexample_zero_parts :
    (call (demo_deps ⟨[], false⟩) demo_cfg (demo_req [])).1 =
        Except.ok (Json.arr []) ∧
      (serve (demo_deps ⟨[], false⟩) demo_cfg (demo_req [])).status = 200 :=
  ⟨rfl, rfl⟩

/-- C2 amended: for every `POST /images` request whose multipart body parses
successfully but contains zero parts, the response is a success with body
the empty JSON array (the `No images were sent` failure branch is not
reached: it only guards the length-1 case). -/
theorem c2_amended_zero_parts (deps : Deps) (cfg : Config) (req : Request)
    (payload : JWTPayload) (bytes : List Nat)
    (hm : req.method = Method.post) (hp : req.path = "/images")
    (hv : verify_token deps.decodeJwt cfg.jwtKey cfg.leeway req.headers = Except.ok payload)
    (hb : read_bytes req.body = Except.ok bytes)
    (hpm : deps.parseMultipart req.headers.contentType bytes = some ⟨[], false⟩) :
    (call deps cfg req).1 = Except.ok (Json.arr []) ∧
      (serve deps cfg req).status = 200 := by
  rcases req with ⟨m, path, hdrs, body⟩
  dsimp only at hm hp hv hb hpm
  subst hm
  subst hp
  have h1 := call_images_eq deps cfg hdrs body payload bytes ⟨[], false⟩ hv hb hpm rfl
  have hr : (call deps cfg ⟨Method.post, "/images", hdrs, body⟩).1 =
      Except.ok (Json.arr []) := by
    rw [h1]
    rfl
  exact ⟨hr, by simp [serve, render_response, with_acao_header, hr]⟩

/-- Witness for the amended C2 at a concrete zero-part request. -/
theorem c2_amended_zero_parts_witness :
    (call (demo_deps ⟨[], false⟩) demo_cfg (demo_req [[1]])).1 =
        Except.ok (Json.arr []) ∧
      (serve (demo_deps ⟨[], false⟩) demo_cfg (demo_req [[1]])).status = 200 :=
  c2_amended_zero_parts (demo_deps ⟨[], false⟩) demo_cfg (demo_req [[1]])
    ⟨7, 1600000000⟩ [1] rfl rfl rfl rfl rfl

/-- C3 (code bug): for every `GET /healthcheck` request, the controller's
match has no healthcheck arm — the request falls through to the fallback and
is answered `NotFound` with status 404, not 200 `ok` as the crate doc
comment (`src/lib.rs`) and the spec state. -/
theorem c3_healthcheck_returns_not_found (deps : Deps) (cfg : Config)
    (hdrs : Headers) (body : Except Unit (List (List Nat))) :
    (call deps cfg ⟨Method.get, "/healthcheck", hdrs, body⟩).1 =
        Except.error ⟨[Error.notFound]⟩ ∧
      (serve deps cfg ⟨Method.get, "/healthcheck", hdrs, body⟩).status = 404 :=
  ⟨rfl, rfl⟩

/-- C4: when `upload_image` fails on the first failing part (all earlier
parts uploaded fine), the request fails carrying the store's own error kind
innermost under the controller's `Image` context: rendered status 400 for a
format rejection, 500 for any other store failure. -/
theorem c4_upload_failure_kind (deps : Deps) (cfg : Config) (req : Request)
    (payload : JWTPayload) (bytes : List Nat) (entity : MultipartEntity)
    (pre : List (List Nat)) (urls : List String) (f : List Nat)
    (rest : List (List Nat)) (fmt : ImageFormat) (k : S3Failure)
    (hm : req.method = Method.post) (hp : req.path = "/images")
    (hv : verify_token deps.decodeJwt cfg.jwtKey cfg.leeway req.headers = Except.ok payload)
    (hb : read_bytes req.body = Except.ok bytes)
    (hpm : deps.parseMultipart req.headers.contentType bytes = some entity)
    (hie : entity.iterErr = false)
    (hsplit : entity.fields.map (fun fd => fd.bytesRead) = pre ++ f :: rest)
    (hpre : spec_urls deps.guessFormat deps.s3Upload pre = some urls)
    (hg : deps.guessFormat f = some fmt)
    (hk : deps.s3Upload fmt f = Except.error k) :
    (call deps cfg req).1 = Except.error ⟨[Error.image, S3Failure.kind k]⟩ ∧
      (serve deps cfg req).status =
        (match k with
         | S3Failure.formatRejection => 400
         | S3Failure.serverOrTransport => 500) := by
  rcases req with ⟨m, path, hdrs, body⟩
  dsimp only at hm hp hv hb hpm
  subst hm
  subst hp
  have h1 := call_images_eq deps cfg hdrs body payload bytes entity hv hb hpm hie
  have hcons : (process_files deps.guessFormat deps.s3Upload (f :: rest)).1 =
      Except.error ⟨[Error.image, S3Failure.kind k]⟩ := by
    simp [process_files, hg, hk]
  have happ := process_files_fst_append deps.guessFormat deps.s3Upload
    pre urls (f :: rest) hpre
  rw [hcons] at happ
  simp only [Except.map] at happ
  have hr : (call deps cfg ⟨Method.post, "/images", hdrs, body⟩).1 =
      Except.error ⟨[Error.image, S3Failure.kind k]⟩ := by
    rw [h1]
    show ((process_files deps.guessFormat deps.s3Upload
        (entity.fields.map (fun fd => fd.bytesRead))).1).bind assemble = _
    rw [hsplit, happ]
    rfl
  refine ⟨hr, ?_⟩
  have hs : (serve deps cfg ⟨Method.post, "/images", hdrs, body⟩).status =
      AppError.renderedCode ⟨[Error.image, S3Failure.kind k]⟩ := by
    simp [serve, render_response, with_acao_header, hr]
  rw [hs]
  cases k <;> rfl

/-- A store adapter that rejects every upload as a format rejection. -/
def reject_upload : ImageFormat → List Nat → Except S3Failure String :=
  fun _ _ => Except.error S3Failure.formatRejection

/-- Demo collaborators with a one-PNG-part body whose upload the store
rejects. -/
def reject_deps : Deps :=
  ⟨demo_decode, fun _ _ => some ⟨[⟨png_bytes, true⟩], false⟩, demo_guess, reject_upload⟩

/-- Witness for C4: a concrete one-part upload rejected by the store as a
format rejection renders status 400. -/
theorem c4_upload_failure_kind_witness :
    (call reject_deps demo_cfg (demo_req [png_bytes])).1 =
        Except.error ⟨[Error.image, S3Failure.kind S3Failure.formatRejection]⟩ ∧
      (serve reject_deps demo_cfg (demo_req [png_bytes])).status =
        (match S3Failure.formatRejection with
         | S3Failure.formatRejection => 400
         | S3Failure.serverOrTransport => 500) :=
  c4_upload_failure_kind reject_deps demo_cfg (demo_req [png_bytes])
    ⟨7, 1600000000⟩ png_bytes ⟨[⟨png_bytes, true⟩], false⟩
    [] [] png_bytes [] ImageFormat.png S3Failure.formatRejection
    rfl rfl rfl rfl rfl rfl rfl rfl rfl rfl

/-- C5: a `POST /images` request whose bearer token is missing or fails JWT
decoding is rejected `Unauthorized` (rendered status 401) before anything
else runs: the body is not read, the multipart body is not parsed, and no
upload is performed. -/
theorem c5_unauthorized_short_circuits (deps : Deps) (cfg : Config) (req : Request)
    (hm : req.method = Method.post) (hp : req.path = "/images")
    (hauth : ∀ t, req.headers.authorization = some t →
      deps.decodeJwt cfg.jwtKey cfg.leeway t = none) :
    call deps cfg req = (Except.error ⟨[Error.unauthorized]⟩, Trace.none) ∧
      (serve deps cfg req).status = 401 ∧
      (call deps cfg req).2.bodyReadAttempted = false ∧
      (call deps cfg req).2.multipartParseAttempted = false ∧
      (call deps cfg req).2.uploads = [] := by
  rcases req with ⟨m, path, hdrs, body⟩
  dsimp only at hm hp hauth
  subst hm
  subst hp
  have hv : verify_token deps.decodeJwt cfg.jwtKey cfg.leeway hdrs =
      Except.error ⟨[Error.unauthorized]⟩ := by
    cases ha : hdrs.authorization with
    | none => simp [verify_token, ha]
    | some t => simp [verify_token, ha, hauth t ha]
  have hroute : route_parser_test "/images" = some Route.images := rfl
  have hc : call deps cfg ⟨Method.post, "/images", hdrs, body⟩ =
      (Except.error ⟨[Error.unauthorized]⟩, Trace.none) := by
    simp only [call, hroute, hv]
  refine ⟨hc, ?_, ?_, ?_, ?_⟩
  · simp [serve, render_response, with_acao_header, hc, AppError.renderedCode,
      Error.code]
  · rw [hc]
    rfl
  · rw [hc]
    rfl
  · rw [hc]
    rfl

/-- Witness for C5: a concrete `POST /images` request with no
`Authorization` header at all. -/
theorem c5_unauthorized_short_circuits_witness :
    call (demo_deps ⟨[], false⟩) demo_cfg
        ⟨Method.post, "/images", ⟨none, none⟩, Except.ok [[1]]⟩ =
      (Except.error ⟨[Error.unauthorized]⟩, Trace.none) ∧
      (serve (demo_deps ⟨[], false⟩) demo_cfg
        ⟨Method.post, "/images", ⟨none, none⟩, Except.ok [[1]]⟩).status = 401 ∧
      (call (demo_deps ⟨[], false⟩) demo_cfg
        ⟨Method.post, "/images", ⟨none, none⟩, Except.ok [[1]]⟩).2.bodyReadAttempted = false ∧
      (call (demo_deps ⟨[], false⟩) demo_cfg
        ⟨Method.post, "/images", ⟨none, none⟩, Except.ok [[1]]⟩).2.multipartParseAttempted = false ∧
      (call (demo_deps ⟨[], false⟩) demo_cfg
        ⟨Method.post, "/images", ⟨none, none⟩, Except.ok [[1]]⟩).2.uploads = [] :=
  c5_unauthorized_short_circuits (demo_deps ⟨[], false⟩) demo_cfg
    ⟨Method.post, "/images", ⟨none, none⟩, Except.ok [[1]]⟩
    rfl rfl (fun _t h => nomatch h)

/-- A store adapter that fails every upload with a non-format (5xx or
transport) error. -/
def outage_upload : ImageFormat → List Nat → Except S3Failure String :=
  fun _ _ => Except.error S3Failure.serverOrTransport

/-- Demo collaborators for the C6 counterexample: the body has a PNG part
followed by a non-image part, and the store is failing with a transport
error. -/
def outage_deps : Deps :=
  ⟨demo_decode, fun _ _ => some ⟨[⟨png_bytes, true⟩, ⟨text_bytes, true⟩], false⟩,
   demo_guess, outage_upload⟩

/-- C6 counterexample: a request with a part the sniffer does not recognize
(`text_bytes`) renders status 500, not 400: the PNG part before it fails its
upload with a transport error first, so the request fails `Internal`, not
`Image`. -/
theorem c6_counterexample_earlier_upload_failure :
    outage_deps.guessFormat text_bytes = none ∧
      (call outage_deps demo_cfg (demo_req [png_bytes, text_bytes])).1 =
        Except.error ⟨[Error.image, Error.internal]⟩ ∧
      (serve outage_deps demo_cfg (demo_req [png_bytes, text_bytes])).status = 500 :=
  ⟨rfl, rfl, rfl⟩

/-- C6 amended: for every `POST /images` request in which format detection
recognizes no format for some part, the request fails (so no URL is
returned); and whenever every part before the first unrecognized part
uploads successfully, the failure is the `Image` kind with rendered status
400. -/
theorem c6_amended_unrecognized_format (deps : Deps) (cfg : Config) (req : Request)
    (payload : JWTPayload) (bytes : List Nat) (entity : MultipartEntity)
    (pre : List (List Nat)) (f : List Nat) (rest : List (List Nat))
    (hm : req.method = Method.post) (hp : req.path = "/images")
    (hv : verify_token deps.decodeJwt cfg.jwtKey cfg.leeway req.headers = Except.ok payload)
    (hb : read_bytes req.body = Except.ok bytes)
    (hpm : deps.parseMultipart req.headers.contentType bytes = some entity)
    (hie : entity.iterErr = false)
    (hsplit : entity.fields.map (fun fd => fd.bytesRead) = pre ++ f :: rest)
    (hg : deps.guessFormat f = none) :
    (∃ e, (call deps cfg req).1 = Except.error e) ∧
      (∀ urls, spec_urls deps.guessFormat deps.s3Upload pre = some urls →
        (call deps cfg req).1 = Except.error ⟨[Error.image]⟩ ∧
          (serve deps cfg req).status = 400) := by
  rcases req with ⟨m, path, hdrs, body⟩
  dsimp only at hm hp hv hb hpm
  subst hm
  subst hp
  have h1 := call_images_eq deps cfg hdrs body payload bytes entity hv hb hpm hie
  constructor
  · have hmem : f ∈ entity.fields.map (fun fd => fd.bytesRead) := by
      rw [hsplit]
      exact List.mem_append_right pre (List.mem_cons_self f rest)
    obtain ⟨e, he⟩ := process_files_fst_err_of_guess_none deps.guessFormat
      deps.s3Upload (entity.fields.map (fun fd => fd.bytesRead)) f hmem hg
    refine ⟨e, ?_⟩
    rw [h1]
    show ((process_files deps.guessFormat deps.s3Upload
        (entity.fields.map (fun fd => fd.bytesRead))).1).bind assemble = _
    rw [he]
    rfl
  · intro urls hpre
    have hcons : (process_files deps.guessFormat deps.s3Upload (f :: rest)).1 =
        Except.error ⟨[Error.image]⟩ := by
      simp [process_files, hg]
    have happ := process_files_fst_append deps.guessFormat deps.s3Upload
      pre urls (f :: rest) hpre
    rw [hcons] at happ
    simp only [Except.map] at happ
    have hr : (call deps cfg ⟨Method.post, "/images", hdrs, body⟩).1 =
        Except.error ⟨[Error.image]⟩ := by
      rw [h1]
      show ((process_files deps.guessFormat deps.s3Upload
          (entity.fields.map (fun fd => fd.bytesRead))).1).bind assemble = _
      rw [hsplit, happ]
      rfl
    exact ⟨hr, by simp [serve, render_response, with_acao_header, hr,
      AppError.renderedCode, Error.code]⟩

/-- Witness for the amended C6: a PNG part uploads fine, then a non-image
part is rejected by the sniffer; the request fails `Image` with status
400. -/
theorem c6_amended_unrecognized_format_witness :
    (call (demo_deps ⟨[⟨png_bytes, true⟩, ⟨text_bytes, true⟩], false⟩) demo_cfg
        (demo_req [png_bytes, text_bytes])).1 = Except.error ⟨[Error.image]⟩ ∧
      (serve (demo_deps ⟨[⟨png_bytes, true⟩, ⟨text_bytes, true⟩], false⟩) demo_cfg
        (demo_req [png_bytes, text_bytes])).status = 400 :=
  (c6_amended_unrecognized_format
      (demo_deps ⟨[⟨png_bytes, true⟩, ⟨text_bytes, true⟩], false⟩) demo_cfg
      (demo_req [png_bytes, text_bytes]) ⟨7, 1600000000⟩
      (png_bytes ++ text_bytes) ⟨[⟨png_bytes, true⟩, ⟨text_bytes, true⟩], false⟩
      [png_bytes] text_bytes []
      rfl rfl rfl rfl rfl rfl rfl rfl).2
    ["https://s3/img-aaaa.png"] rfl

/-- C7: every response the server produces, for every route and outcome,
carries the `Access-Control-Allow-Origin` header with the configured
`server.acao` value (the middleware installed in `start_server` adds it to
each response). -/
theorem c7_acao_on_every_response (deps : Deps) (cfg : Config) (req : Request) :
    ("Access-Control-Allow-Origin", cfg.acao) ∈ (serve deps cfg req).headers := by
  simp [serve, with_acao_header]

/-- C8: the error-telemetry sink is invoked for a request if and only if its
rendered HTTP status is 500; responses with any other status are never
reported. -/
theorem c8_sentry_reported_iff_500 (deps : Deps) (cfg : Config) (req : Request) :
    sentry_reported (call deps cfg req).1 = true ↔
      (serve deps cfg req).status = 500 := by
  cases h : (call deps cfg req).1 with
  | ok v => simp [sentry_reported, serve, render_response, with_acao_header, h]
  | error e => simp [sentry_reported, serve, render_response, with_acao_header, h]

/-- C9: whenever the collected list of uploaded images has length exactly 1,
response assembly takes its sole element and succeeds; the error branch
(`No images were sent`) of the length-1 case is unreachable. -/
theorem c9_singleton_assembly (l : List Json) (h : l.length = 1) :
    ∃ j, l = [j] ∧ assemble l = Except.ok j := by
  cases l with
  | nil => cases h
  | cons a t =>
    cases t with
    | nil => exact ⟨a, rfl, rfl⟩
    | cons b t2 => simp at h

/-- Witness for C9 at a concrete one-element list. -/
theorem c9_singleton_assembly_witness :
    ([Json.str "u"] : List Json).length = 1 ∧
      ∃ j, ([Json.str "u"] : List Json) = [j] ∧
        assemble [Json.str "u"] = Except.ok j :=
  ⟨rfl, c9_singleton_assembly [Json.str "u"] rfl⟩

/-- C10: an I/O error while reading one field's data (`readOk = false`) is
ignored: the bytes read so far are still pushed onto the file list in place,
the remaining fields are still processed, and entry collection succeeds
rather than failing the request at the parse stage. -/
theorem c10_field_read_error_ignored (pre post : List MultipartField)
    (bs : List Nat) :
    collect_files ⟨pre ++ ⟨bs, false⟩ :: post, false⟩ =
      Except.ok ((pre.map fun fd => fd.bytesRead) ++
        bs :: (post.map fun fd => fd.bytesRead)) := by
  simp [collect_files]
